import Mathlib

/-!
Verification of `mypack/analysis.py` against its specification.

The embedding models numpy arrays as C-order (row-major) flat data lists
paired with a shape, which is exactly the numpy memory model for the
operations used by the source: `np.swapaxes` is materialised as the
corresponding data permutation (numpy produces a view, but every later
`np.reshape` of such a view copies in C order, so materialising is
observationally equal), `np.reshape` keeps the flat buffer and replaces the
shape, and slice assignment `output[i] = v` writes a broadcast copy of `v`
into the `i`-th C-order segment of the buffer.

Python exceptions (IndexError from list indexing, numpy AxisError from
`swapaxes`, ValueError from reshape / broadcasting, TypeError from a bad
argument, ZeroDivisionError from float division) are modelled with
`Except PyErr`.  Real-number values are modelled with `ℚ`; every concrete
input appearing in the claims is exactly representable, and all Python
float operations on them are exact.
-/

inductive PyErr where
  | indexError
  | axisError
  | valueError
  | typeError
  | zeroDivisionError
deriving DecidableEq, Repr

/-- An N-dimensional array: shape plus C-order flat data. -/
structure NDArray (α : Type) where
  shape : List Nat
  data : List α
deriving DecidableEq, Repr

def NDArray.rank (a : NDArray α) : Nat := a.shape.length

/-- Elementwise map (numpy ufunc application, e.g. `1.*mask` or `> 0`). -/
def NDArray.emap (f : α → β) (a : NDArray α) : NDArray β :=
  ⟨a.shape, a.data.map f⟩

/-- Mixed-radix decomposition of a flat C-order index into a multi-index. -/
def unravel : List Nat → Nat → List Nat
  | [], _ => []
  | _ :: ds, k => k / ds.prod :: unravel ds (k % ds.prod)

/-- C-order flat index of a multi-index. -/
def ravel : List Nat → List Nat → Nat
  | _ :: ds, i :: is => i * ds.prod + ravel ds is
  | _, _ => 0

/-- Swap positions `p` and `q` of a list (used for shapes and multi-indices). -/
def swapList (p q : Nat) (l : List Nat) : List Nat :=
  (l.set p (l.getD q 0)).set q (l.getD p 0)

/-- `np.swapaxes(a, p, q)` for already-normalised axis numbers, materialised
in C order. -/
def swapAxes [Inhabited α] (a : NDArray α) (p q : Nat) : NDArray α :=
  ⟨swapList p q a.shape,
   (List.range (swapList p q a.shape).prod).map fun k =>
     a.data.getD (ravel a.shape (swapList p q (unravel (swapList p q a.shape) k))) default⟩

/-- numpy axis normalisation: an axis argument `a` is valid iff
`-rank ≤ a < rank`; a negative value counts from the end.  `none` models
`numpy.AxisError` (for `swapaxes`) or `IndexError` (for Python list
indexing, which uses the same rule). -/
def normAxis (rank : Nat) (a : Int) : Option Nat :=
  if 0 ≤ a ∧ a < rank then some a.toNat
  else if -(rank : Int) ≤ a ∧ a < 0 then some (a + rank).toNat
  else none

/-- Python slice `l[:-n]` (note `l[:-0]` is empty, not all of `l`). -/
def pyLead (l : List Nat) (n : Nat) : List Nat :=
  if n = 0 then [] else l.take (l.length - n)

/-- Python slice `l[-n:]` (note `l[-0:]` is all of `l`). -/
def pyTrail (l : List Nat) (n : Nat) : List Nat :=
  if n = 0 then l else l.drop (l.length - n)

/-- `np.reshape(a, (-1, *trail))`: keep the buffer, infer the leading
dimension; ValueError when the trailing product is zero or does not divide
the total size. -/
def reshapeNeg1 (a : NDArray α) (trail : List Nat) : Except PyErr (NDArray α) :=
  if trail.prod = 0 then .error .valueError
  else if a.shape.prod % trail.prod = 0 then
    .ok ⟨a.shape.prod / trail.prod :: trail, a.data⟩
  else .error .valueError

/-- `np.reshape(a, newShape)` with a fully explicit shape. -/
def reshapePy (a : NDArray α) (newShape : List Nat) : Except PyErr (NDArray α) :=
  if newShape.prod = a.shape.prod then .ok ⟨newShape, a.data⟩
  else .error .valueError

/-- `np.zeros(shape)`. -/
def zerosQ (shape : List Nat) : NDArray ℚ := ⟨shape, List.replicate shape.prod 0⟩

/-- `a[i]` for the leading axis of a stacked array: the `i`-th C-order
segment, of shape `a.shape.tail`. -/
def sliceAt (a : NDArray ℚ) (i : Nat) : NDArray ℚ :=
  ⟨a.shape.tail, (a.data.drop (i * a.shape.tail.prod)).take a.shape.tail.prod⟩

/-- numpy broadcasting of `a` to shape `target` (as used by the slice
assignment `output[i] = value`): pad the shape with leading ones, then every
dimension must match or be 1. -/
def broadcastTo (target : List Nat) (a : NDArray ℚ) : Option (NDArray ℚ) :=
  if a.shape.length ≤ target.length then
    if ((List.replicate (target.length - a.shape.length) 1 ++ a.shape).zip target).all
        (fun p => p.1 == p.2 || p.1 == 1) then
      some ⟨target, (List.range target.prod).map fun k =>
        a.data.getD (ravel a.shape
          (((unravel target k).zip
              (List.replicate (target.length - a.shape.length) 1 ++ a.shape)).map
            (fun p => if p.2 = 1 then 0 else p.1)
            |>.drop (target.length - a.shape.length))) 0⟩
    else none
  else none

/-- The slice assignment `output[i] = value` from `do_stack`'s loop:
IndexError when `i` is outside the leading axis, ValueError when `value`
does not broadcast to the slice shape. -/
def setSlice (out : NDArray ℚ) (i : Nat) (val : NDArray ℚ) : Except PyErr (NDArray ℚ) :=
  if i < out.shape.headD 0 then
    match broadcastTo out.shape.tail val with
    | none => .error .valueError
    | some v =>
      .ok ⟨out.shape, (out.data.take (i * out.shape.tail.prod)) ++ v.data ++
        (out.data.drop ((i + 1) * out.shape.tail.prod))⟩
  else .error .indexError

/-- The per-slice loop of `do_stack` (analysis.py lines 357-358):
`for i in range(array.shape[0]): output[i] = func(array[i])`. -/
def sliceLoop (func : NDArray ℚ → Except PyErr (NDArray ℚ)) (arr : NDArray ℚ) :
    Nat → Nat → NDArray ℚ → Except PyErr (NDArray ℚ)
  | _, 0, out => .ok out
  | i, n + 1, out =>
    match func (sliceAt arr i) with
    | .error e => .error e
    | .ok val =>
      match setSlice out i val with
      | .error e => .error e
      | .ok out2 => sliceLoop func arr (i + 1) n out2

/-- `list(range(-ndim, 0))`, the default `axes` and the `lastaxes` of
`do_stack`. -/
def defaultAxes (ndim : Nat) : List Int :=
  (List.range ndim).map fun i => (i : Int) - ndim

/-- One iteration of the axis-swapping loop of `do_stack` (lines 344-345):
`array = np.swapaxes(array, axes[i], lastaxes[i])`.  `axes[i]` raises
IndexError when `i ≥ len(axes)`; `np.swapaxes` raises AxisError when an
axis is outside `[-rank, rank)`. -/
def swapStep (axes lastAxes : List Int) (i : Nat) (arr : NDArray ℚ) :
    Except PyErr (NDArray ℚ) :=
  match axes.get? i with
  | none => .error .indexError
  | some a =>
    match lastAxes.get? i with
    | none => .error .indexError
    | some b =>
      match normAxis arr.rank a, normAxis arr.rank b with
      | some p, some q => .ok (swapAxes arr p q)
      | _, _ => .error .axisError

/-- The axis-swapping loop `for i in range(ndim): ...` starting at index
`i` with `n` iterations left. -/
def swapFrom (axes lastAxes : List Int) : Nat → Nat → NDArray ℚ → Except PyErr (NDArray ℚ)
  | _, 0, arr => .ok arr
  | i, n + 1, arr =>
    match swapStep axes lastAxes i arr with
    | .error e => .error e
    | .ok arr2 => swapFrom axes lastAxes (i + 1) n arr2

/-- `do_stack` after the initial axis permutation (analysis.py lines
347-368): save `stackshape`, reshape input and output to
`(-1, *shape[-ndim:])`, run the per-slice loop, reshape both back to
`(*stackshape, *shape[-ndim:])` and re-apply the same swap sequence to
both (the source's "Reswap axes" loop repeats the forward swaps in the
same order), returning the output. -/
def doStackRest (func : NDArray ℚ → Except PyErr (NDArray ℚ)) (ndim : Nat)
    (axes : List Int) (arr1 output : NDArray ℚ) : Except PyErr (NDArray ℚ) :=
  match reshapeNeg1 arr1 (pyTrail arr1.shape ndim) with
  | .error e => .error e
  | .ok arr2 =>
    match reshapeNeg1 output (pyTrail output.shape ndim) with
    | .error e => .error e
    | .ok out2 =>
      match sliceLoop func arr2 0 (arr2.shape.headD 0) out2 with
      | .error e => .error e
      | .ok out3 =>
        match reshapePy arr2 (pyLead arr1.shape ndim ++ pyTrail arr2.shape ndim) with
        | .error e => .error e
        | .ok arr3 =>
          match reshapePy out3 (pyLead arr1.shape ndim ++ pyTrail out3.shape ndim) with
          | .error e => .error e
          | .ok out4 =>
            match swapFrom axes (defaultAxes ndim) 0 ndim arr3 with
            | .error e => .error e
            | .ok _ => swapFrom axes (defaultAxes ndim) 0 ndim out4

/-- `do_stack` with the `axes` argument already resolved: first the
forward swap loop, then the default `output = np.zeros(array.shape)`
allocation (on the already-permuted shape), then the rest. -/
def doStackCore (func : NDArray ℚ → Except PyErr (NDArray ℚ)) (ndim : Nat)
    (array : NDArray ℚ) (axes : List Int) (outputOpt : Option (NDArray ℚ)) :
    Except PyErr (NDArray ℚ) :=
  match swapFrom axes (defaultAxes ndim) 0 ndim array with
  | .error e => .error e
  | .ok arr1 => doStackRest func ndim axes arr1 (outputOpt.getD (zerosQ arr1.shape))

/-- `do_stack(func, ndim, array, axes=axesOpt, output=outputOpt)` from
analysis.py lines 327-368.  Extra `*args`/`**kwargs` of the source are
forwarded to `func` unchanged, so here they are curried into `func`. -/
def do_stack (func : NDArray ℚ → Except PyErr (NDArray ℚ)) (ndim : Nat)
    (array : NDArray ℚ) (axesOpt : Option (List Int)) (outputOpt : Option (NDArray ℚ)) :
    Except PyErr (NDArray ℚ) :=
  doStackCore func ndim array (axesOpt.getD (defaultAxes ndim)) outputOpt

def c1arr : NDArray ℚ := ⟨[2, 3, 4], List.replicate 24 0⟩

/-- C1: refuted by the code.  `do_stack` with the identity operation,
`op_rank = 2` and the axis selection `[0, 1]` on a rank-3 array of shape
`(2, 3, 4)` returns an array of shape `(4, 2, 3)`, not the input: the
"swap axes to the end" loop mispermutes when the transpositions overlap
(after `swapaxes(0, 1)` the second `swapaxes(1, 2)` moves original axis 0
again), and the "Reswap axes" loop repeats the same transpositions in the
same order, which is not the inverse permutation. -/
theorem c1_identity_roundtrip_violated :
    (do_stack (fun a => Except.ok a) 2 c1arr (some [0, 1]) none).map NDArray.shape
      = Except.ok [4, 2, 3] ∧ ([4, 2, 3] : List Nat) ≠ [2, 3, 4] :=
  ⟨rfl, by decide⟩

def c5arr : NDArray ℚ := ⟨[2, 2], [1, 2, 3, 4]⟩

/-- C5 counterexample: the claim says `do_stack` fails whenever the axis
selection's length differs from `op_rank`, but a selection *longer* than
`op_rank` is accepted: with `op_rank = 1` and `axes = [1, 0]` (length 2)
the loop `for i in range(ndim)` only reads `axes[0]`, the extra entry is
ignored, and the call returns normally. -/
theorem c5_long_axes_not_rejected :
    do_stack (fun a => Except.ok a) 1 c5arr (some [1, 0]) none = Except.ok c5arr :=
  rfl

lemma swapStep_ok_rank {axes lastAxes : List Int} {i : Nat} {arr arr2 : NDArray ℚ}
    (h : swapStep axes lastAxes i arr = .ok arr2) : arr2.rank = arr.rank := by
  unfold swapStep at h
  split at h
  · cases h
  · split at h
    · cases h
    · split at h
      · injection h with h2
        rw [← h2]
        simp [swapAxes, NDArray.rank, swapList]
      · cases h

lemma swapStep_ok_get {axes lastAxes : List Int} {i : Nat} {arr arr2 : NDArray ℚ}
    (h : swapStep axes lastAxes i arr = .ok arr2) :
    ∃ a, axes.get? i = some a ∧ (normAxis arr.rank a).isSome := by
  unfold swapStep at h
  split at h
  · cases h
  · rename_i a hga
    split at h
    · cases h
    · rename_i b hgb
      split at h
      · rename_i p q hp hq
        exact ⟨a, hga, by rw [hp]; rfl⟩
      · cases h

lemma swapFrom_ok_get (axes lastAxes : List Int) :
    ∀ (n i : Nat) (arr arr2 : NDArray ℚ), swapFrom axes lastAxes i n arr = .ok arr2 →
      ∀ j, j < n → ∃ a, axes.get? (i + j) = some a ∧ (normAxis arr.rank a).isSome := by
  intro n
  induction n with
  | zero => intro i arr arr2 _ j hj; omega
  | succ m ih =>
    intro i arr arr2 h j hj
    unfold swapFrom at h
    cases hs : swapStep axes lastAxes i arr with
    | error e => rw [hs] at h; cases h
    | ok arrm =>
      rw [hs] at h
      have hrank := swapStep_ok_rank hs
      cases j with
      | zero =>
        obtain ⟨a, ha1, ha2⟩ := swapStep_ok_get hs
        exact ⟨a, by simpa using ha1, ha2⟩
      | succ j2 =>
        obtain ⟨a, ha1, ha2⟩ := ih (i + 1) arrm arr2 h j2 (by omega)
        refine ⟨a, ?_, ?_⟩
        · rw [show i + (j2 + 1) = (i + 1) + j2 by omega]; exact ha1
        · rw [← hrank]; exact ha2

lemma doStack_error_of_swapFrom {axes : List Int} {ndim : Nat} {array : NDArray ℚ}
    {e : PyErr} (hs : swapFrom axes (defaultAxes ndim) 0 ndim array = .error e) :
    ∀ func outputOpt, do_stack func ndim array (some axes) outputOpt = .error e := by
  intro func outputOpt
  unfold do_stack doStackCore
  rw [Option.getD_some, hs]

/-- C5 amended: `do_stack` does fail before any per-slice computation (the
result is the same error for every `func` and `output`) when the axis
selection is *shorter* than `op_rank` (Python IndexError from `axes[i]`) or
when one of its first `op_rank` entries is outside `[-rank, rank)` (numpy
AxisError from `swapaxes`); but a selection longer than `op_rank` is not
rejected — entries beyond the first `op_rank` are ignored (see the
counterexample). -/
theorem c5_short_or_invalid_axes_fault (ndim : Nat) (array : NDArray ℚ) (axes : List Int)
    (h : axes.length < ndim ∨
      ∃ j a, j < ndim ∧ axes.get? j = some a ∧ normAxis array.rank a = none) :
    ∃ e, ∀ func outputOpt, do_stack func ndim array (some axes) outputOpt = .error e := by
  cases hs : swapFrom axes (defaultAxes ndim) 0 ndim array with
  | error e => exact ⟨e, doStack_error_of_swapFrom hs⟩
  | ok arr1 =>
    exfalso
    have hv := swapFrom_ok_get axes (defaultAxes ndim) ndim 0 array arr1 hs
    cases h with
    | inl hlen =>
      obtain ⟨a, ha, _⟩ := hv axes.length hlen
      rw [Nat.zero_add] at ha
      have : axes.get? axes.length = none := by
        rw [List.get?_eq_none]
      rw [this] at ha
      cases ha
    | inr hex =>
      obtain ⟨j, a, hj, hget, hnone⟩ := hex
      obtain ⟨a2, ha2, hsome⟩ := hv j hj
      rw [Nat.zero_add, hget] at ha2
      injection ha2 with he
      subst he
      rw [hnone] at hsome
      cases hsome

theorem c5_short_or_invalid_axes_fault_witness :
    ([0] : List Int).length < 2 ∧
      ∃ e, ∀ func outputOpt, do_stack func 2 c1arr (some [0]) outputOpt = .error e :=
  ⟨by decide, c5_short_or_invalid_axes_fault 2 c1arr [0] (Or.inl (by decide))⟩

/-- A heap of numeric buffers indexed by address, used to state the frame
property of `do_stack`'s write loop. -/
def Heap : Type := Nat → List ℚ

def writeBuf (h : Heap) (a : Nat) (v : List ℚ) : Heap :=
  fun x => if x = a then v else h x

/-- Read the `i`-th length-`m` C-order segment of a buffer (`array[i]`). -/
def segRead (buf : List ℚ) (i m : Nat) : List ℚ := (buf.drop (i * m)).take m

/-- Overwrite the `i`-th length-`m` segment of a buffer (`output[i] = v`). -/
def segWrite (buf : List ℚ) (i m : Nat) (v : List ℚ) : List ℚ :=
  buf.take (i * m) ++ v.take m ++ buf.drop (i * m + m)

/-- The only statement of `do_stack` that mutates an existing buffer is the
loop `for i in range(array.shape[0]): output[i] = func(array[i], ...)`
(analysis.py lines 357-358); every other line rebinds a local name to a
fresh view or copy.  This models that loop against a heap holding the
input buffer at `inAddr` and the output buffer at `outAddr`: each
iteration reads slice `i` of the input buffer and writes the result over
slice `i` of the output buffer. -/
def doStackWriteLoop (func : List ℚ → List ℚ) (inAddr outAddr m mo : Nat) :
    List Nat → Heap → Heap
  | [], h => h
  | i :: rest, h =>
    doStackWriteLoop func inAddr outAddr m mo rest
      (writeBuf h outAddr (segWrite (h outAddr) i mo (func (segRead (h inAddr) i m))))

/-- C10: when the output buffer does not alias the input buffer, the
per-slice loop of `do_stack` leaves the input buffer's contents unchanged:
every write targets the output address only. -/
theorem c10_input_buffer_unchanged (func : List ℚ → List ℚ) (inAddr outAddr m mo : Nat)
    (idxs : List Nat) (h : Heap) (hsep : outAddr ≠ inAddr) :
    doStackWriteLoop func inAddr outAddr m mo idxs h inAddr = h inAddr := by
  induction idxs generalizing h with
  | nil => rfl
  | cons i rest ih =>
    unfold doStackWriteLoop
    rw [ih]
    simp [writeBuf, Ne.symm hsep]

def heapW : Heap := fun _ => [5, 7]

theorem c10_input_buffer_unchanged_witness :
    (1 : Nat) ≠ 0 ∧ doStackWriteLoop (fun l => l) 0 1 2 2 [0] heapW 0 = heapW 0 :=
  ⟨by decide, c10_input_buffer_unchanged (fun l => l) 0 1 2 2 [0] heapW (by decide)⟩

/-- The bisection loop of `get_zero_dichoto` (analysis.py lines 242-248):

    while (t2 - t1 > 1) and (ncount < 10000):
        ncount += 1
        t3 = int((t2+t1)/2)
        if sigZero[t2]*sigZero[t3] >= 0: t2 = t3
        else: t1 = t3

modelled with `fuel = 10000 - ncount` (so `ncount < 10000` is `fuel > 0`),
returning the final `(t1, t2, fuel)` state.  `int((t2+t1)/2)` is floor
division here; Python computes it by float division, which is exact for
`t1 + t2 ≤ 2^53`.  Out-of-range signal reads raise IndexError. -/
def dichoGo (sz : List ℚ) : Nat → Nat → Nat → Except PyErr (Nat × Nat × Nat)
  | t1, t2, 0 => .ok (t1, t2, 0)
  | t1, t2, fuel + 1 =>
    if t2 - t1 > 1 then
      match sz.get? t2, sz.get? ((t2 + t1) / 2) with
      | some a, some b =>
        if a * b ≥ 0 then dichoGo sz t1 ((t2 + t1) / 2) fuel
        else dichoGo sz ((t2 + t1) / 2) t2 fuel
      | _, _ => .error .indexError
    else .ok (t1, t2, fuel + 1)

/-- `get_zero_dichoto(sig, target, t1, t2)` (analysis.py lines 228-250):
center the signal (`sigZero[i] = sig[i] - target`), default
`t2 = len(sig) - 1`, run the bisection loop, return the final `t1`. -/
def get_zero_dichoto (sig : List ℚ) (target : ℚ) (t1 : Nat) (t2opt : Option Nat) :
    Except PyErr Nat :=
  match dichoGo (sig.map fun s => s - target) t1 (t2opt.getD (sig.length - 1)) 10000 with
  | .error e => .error e
  | .ok (r, _, _) => .ok r

/-- Python list read `l[i]` for a non-negative index. -/
def pyGet (l : List ℚ) (i : Nat) : Except PyErr ℚ :=
  match l.get? i with
  | some v => .ok v
  | none => .error .indexError

/-- `get_cursor(x, y, pointer, t1, t2, Xaxis)` (analysis.py lines 371-395):
swap `x`/`y` if `Xaxis`; map a given `t1`/`t2` (in x units) through
`get_zero_dichoto` on `x`; locate the bracket `t` of `pointer` on `y`;
linearly interpolate.  Float division by zero raises ZeroDivisionError. -/
def get_cursor (x y : List ℚ) (pointer : ℚ) (t1opt t2opt : Option ℚ) (xaxis : Bool) :
    Except PyErr ℚ :=
  let xv := match xaxis with | true => y | false => x
  let yv := match xaxis with | true => x | false => y
  match (match t1opt with
         | none => Except.ok 0
         | some v => get_zero_dichoto xv v 0 none) with
  | .error e => .error e
  | .ok t1 =>
    match (match t2opt with
           | none => Except.ok none
           | some v =>
             match get_zero_dichoto xv v 0 none with
             | .error e => .error e
             | .ok r => Except.ok (some r)) with
    | .error e => .error e
    | .ok t2 =>
      match get_zero_dichoto yv pointer t1 t2 with
      | .error e => .error e
      | .ok t =>
        match pyGet yv (t + 1) with
        | .error e => .error e
        | .ok y1 =>
          match pyGet yv t with
          | .error e => .error e
          | .ok y0 =>
            match pyGet xv (t + 1) with
            | .error e => .error e
            | .ok x1 =>
              match pyGet xv t with
              | .error e => .error e
              | .ok x0 =>
                if x1 - x0 = 0 then .error .zeroDivisionError
                else if (y1 - y0) / (x1 - x0) = 0 then .error .zeroDivisionError
                else .ok ((pointer - y0) / ((y1 - y0) / (x1 - x0)) + x0)

def c4sig : List ℚ := [-2, -1, 0, 1, 2]

/-- C4: refuted by the code.  `get_zero_dichoto([-2, -1, 0, 1, 2], 0)`
returns 0, not an index in {1, 2}: the signal is exactly zero at index 2,
so the product test `sigZero[t2]*sigZero[t3] >= 0` holds whenever the
midpoint or right bound hits that zero, and the loop shrinks the window to
`[0, 2]` and then to `[0, 1]`, excluding the crossing. -/
theorem c4_bracket_misses_crossing : get_zero_dichoto c4sig 0 0 none = Except.ok 0 := by
  have hsz : c4sig.map (fun s => s - (0 : ℚ)) = [-2, -1, 0, 1, 2] := by
    norm_num [c4sig]
  have h1 : dichoGo [-2, -1, 0, 1, 2] 0 4 10000 = dichoGo [-2, -1, 0, 1, 2] 0 2 9999 := by
    rw [show (10000 : Nat) = 9999 + 1 from rfl]
    rw [dichoGo]
    norm_num
  have h2 : dichoGo [-2, -1, 0, 1, 2] 0 2 9999 = dichoGo [-2, -1, 0, 1, 2] 0 1 9998 := by
    rw [show (9999 : Nat) = 9998 + 1 from rfl]
    rw [dichoGo]
    norm_num
  have h3 : dichoGo [-2, -1, 0, 1, 2] 0 1 9998 = .ok (0, 1, 9998) := by
    rw [show (9998 : Nat) = 9997 + 1 from rfl]
    rw [dichoGo]
    norm_num
  unfold get_zero_dichoto
  rw [hsz]
  norm_num [h1, h2, h3, c4sig]

lemma dichoGo_safe (sz : List ℚ) :
    ∀ (fuel t1 t2 : Nat), t1 < t2 → t2 < sz.length →
      ∃ r t2f f, dichoGo sz t1 t2 fuel = .ok (r, t2f, f) ∧ t1 ≤ r ∧ r < t2f ∧ t2f ≤ t2 := by
  intro fuel
  induction fuel with
  | zero =>
    intro t1 t2 h1 _
    exact ⟨t1, t2, 0, rfl, le_refl _, h1, le_refl _⟩
  | succ m ih =>
    intro t1 t2 h1 h2
    by_cases hw : t2 - t1 > 1
    · have ht3lt : (t2 + t1) / 2 < sz.length := by omega
      have ht2 : sz.get? t2 = some (sz.get ⟨t2, h2⟩) := List.get?_eq_get h2
      have ht3 : sz.get? ((t2 + t1) / 2) = some (sz.get ⟨_, ht3lt⟩) := List.get?_eq_get ht3lt
      simp only [dichoGo]
      rw [if_pos hw, ht2, ht3]
      dsimp only
      by_cases hs : sz.get ⟨t2, h2⟩ * sz.get ⟨_, ht3lt⟩ ≥ 0
      · rw [if_pos hs]
        obtain ⟨r, t2f, f, heq, hb1, hb2, hb3⟩ := ih t1 ((t2 + t1) / 2) (by omega) (by omega)
        exact ⟨r, t2f, f, heq, hb1, hb2, by omega⟩
      · rw [if_neg hs]
        obtain ⟨r, t2f, f, heq, hb1, hb2, hb3⟩ := ih ((t2 + t1) / 2) t2 (by omega) h2
        exact ⟨r, t2f, f, heq, by omega, hb2, hb3⟩
    · simp only [dichoGo]
      rw [if_neg hw]
      exact ⟨t1, t2, m + 1, rfl, le_refl _, h1, le_refl _⟩

lemma dichoGo_term (sz : List ℚ) :
    ∀ (k t1 t2 fuel : Nat), t1 < t2 → t2 < sz.length → t2 - t1 ≤ 2 ^ k → k < fuel →
      ∃ r f, dichoGo sz t1 t2 fuel = .ok (r, r + 1, f + 1) ∧ t1 ≤ r ∧ r + 1 ≤ t2 := by
  intro k
  induction k with
  | zero =>
    intro t1 t2 fuel h1 _ hk hf
    have ht : t2 = t1 + 1 := by simpa using by omega
    subst ht
    obtain ⟨m, rfl⟩ : ∃ m, fuel = m + 1 := ⟨fuel - 1, by omega⟩
    refine ⟨t1, m, ?_, le_refl _, le_refl _⟩
    simp only [dichoGo]
    rw [if_neg (by omega)]
  | succ kk ih =>
    intro t1 t2 fuel h1 h2 hk hf
    obtain ⟨m, rfl⟩ : ∃ m, fuel = m + 1 := ⟨fuel - 1, by omega⟩
    by_cases hw : t2 - t1 > 1
    · have ht3lt : (t2 + t1) / 2 < sz.length := by omega
      have ht2 : sz.get? t2 = some (sz.get ⟨t2, h2⟩) := List.get?_eq_get h2
      have ht3 : sz.get? ((t2 + t1) / 2) = some (sz.get ⟨_, ht3lt⟩) := List.get?_eq_get ht3lt
      have hpow : (2 : Nat) ^ (kk + 1) = 2 ^ kk + 2 ^ kk := by
        rw [pow_succ]; omega
      rw [hpow] at hk
      simp only [dichoGo]
      rw [if_pos hw, ht2, ht3]
      dsimp only
      by_cases hs : sz.get ⟨t2, h2⟩ * sz.get ⟨_, ht3lt⟩ ≥ 0
      · rw [if_pos hs]
        obtain ⟨r, f, heq, hb1, hb2⟩ :=
          ih t1 ((t2 + t1) / 2) m (by omega) (by omega) (by omega) (by omega)
        exact ⟨r, f, heq, hb1, by omega⟩
      · rw [if_neg hs]
        obtain ⟨r, f, heq, hb1, hb2⟩ :=
          ih ((t2 + t1) / 2) t2 m (by omega) h2 (by omega) (by omega)
        exact ⟨r, f, heq, by omega, hb2⟩
    · have ht : t2 = t1 + 1 := by omega
      subst ht
      refine ⟨t1, m, ?_, le_refl _, le_refl _⟩
      simp only [dichoGo]
      rw [if_neg (by omega)]

/-- C7: each bisection iteration replaces the window `[t1, t2]` by
`[t1, t3]` or `[t3, t2]` with `t3 = (t2 + t1) / 2`, which strictly
decreases the width while keeping it at least 1 (first conjunct, pure
window arithmetic); hence for any in-range window of realistic width
(`t2 ≤ 2^52`, which also keeps Python's float midpoint computation exact)
the loop stops with final width `t2 - t1 = 1` and with fuel left
(`f + 1 > 0`, i.e. strictly before the 10000-iteration cap), and
`get_zero_dichoto` returns the final `t1`. -/
theorem c7_bisection_terminates (sig : List ℚ) (target : ℚ) (t1 t2 : Nat)
    (h1 : t1 < t2) (h2 : t2 < sig.length) (h3 : t2 ≤ 2 ^ 52) :
    (∀ u1 u2 : Nat, u2 - u1 > 1 →
      (u2 + u1) / 2 - u1 < u2 - u1 ∧ u2 - (u2 + u1) / 2 < u2 - u1 ∧
        1 ≤ (u2 + u1) / 2 - u1 ∧ 1 ≤ u2 - (u2 + u1) / 2) ∧
    ∃ r f, dichoGo (sig.map fun s => s - target) t1 t2 10000 = .ok (r, r + 1, f + 1) ∧
      get_zero_dichoto sig target t1 (some t2) = .ok r := by
  constructor
  · intro u1 u2 hu
    omega
  · have hlen : (sig.map fun s => s - target).length = sig.length := by simp
    obtain ⟨r, f, heq, _, _⟩ :=
      dichoGo_term (sig.map fun s => s - target) 52 t1 t2 10000 h1
        (by rw [hlen]; exact h2) (le_trans (Nat.sub_le t2 t1) h3) (by norm_num)
    refine ⟨r, f, heq, ?_⟩
    unfold get_zero_dichoto
    rw [show (some t2).getD (sig.length - 1) = t2 from rfl, heq]

theorem c7_bisection_terminates_witness :
    ((0 : Nat) < 4 ∧ 4 < c4sig.length ∧ 4 ≤ 2 ^ 52) ∧
      ∃ r f, dichoGo (c4sig.map fun s => s - (0 : ℚ)) 0 4 10000 = .ok (r, r + 1, f + 1) ∧
        get_zero_dichoto c4sig 0 0 (some 4) = .ok r :=
  ⟨⟨by decide, by decide, by norm_num⟩,
    (c7_bisection_terminates c4sig 0 0 4 (by decide) (by decide) (by norm_num)).2⟩

/-- C9: for a signal of length `n ≥ 2` and a window `0 ≤ t1 < t2 ≤ n - 1`,
`get_zero_dichoto` succeeds (in this embedding every signal read is
bounds-checked and returns IndexError when out of range, so success means
every read of the centered signal was at an index in `[0, n-1]`) and
returns `r` with `t1 ≤ r ≤ t2 - 1`; consequently `r` and `r + 1` are valid
indices of any list of the same length, so `get_cursor`'s subsequent reads
`y[t+1]`, `y[t]`, `x[t+1]`, `x[t]` are in bounds. -/
theorem c9_dichoto_in_bounds (sig : List ℚ) (target : ℚ) (t1 t2 : Nat)
    (h0 : 2 ≤ sig.length) (h1 : t1 < t2) (h2 : t2 ≤ sig.length - 1) :
    ∃ r, get_zero_dichoto sig target t1 (some t2) = .ok r ∧ t1 ≤ r ∧ r + 1 ≤ t2 ∧
      ∀ l : List ℚ, l.length = sig.length →
        (∃ v, pyGet l r = .ok v) ∧ ∃ v, pyGet l (r + 1) = .ok v := by
  have h2l : t2 < sig.length := by omega
  have hlen : (sig.map fun s => s - target).length = sig.length := by simp
  obtain ⟨r, t2f, f, heq, hr1, hr2, hr3⟩ :=
    dichoGo_safe (sig.map fun s => s - target) 10000 t1 t2 h1 (by rw [hlen]; exact h2l)
  refine ⟨r, ?_, hr1, by omega, ?_⟩
  · unfold get_zero_dichoto
    rw [show (some t2).getD (sig.length - 1) = t2 from rfl, heq]
  · intro l hl
    have hb1 : r < l.length := by omega
    have hb2 : r + 1 < l.length := by omega
    constructor
    · exact ⟨l.get ⟨r, hb1⟩, by unfold pyGet; rw [List.get?_eq_get hb1]⟩
    · exact ⟨l.get ⟨r + 1, hb2⟩, by unfold pyGet; rw [List.get?_eq_get hb2]⟩

theorem c9_dichoto_in_bounds_witness :
    (2 ≤ c4sig.length ∧ (0 : Nat) < 4 ∧ 4 ≤ c4sig.length - 1) ∧
      ∃ r, get_zero_dichoto c4sig 1 0 (some 4) = .ok r ∧ 0 ≤ r ∧ r + 1 ≤ 4 ∧
        ∀ l : List ℚ, l.length = c4sig.length →
          (∃ v, pyGet l r = .ok v) ∧ ∃ v, pyGet l (r + 1) = .ok v :=
  ⟨⟨by decide, by decide, by decide⟩,
    c9_dichoto_in_bounds c4sig 1 0 4 (by decide) (by decide) (by decide)⟩

def c8list : List ℚ := [0, 1, 2, 3]

/-- C8: confirmed.  `get_cursor(x=[0,1,2,3], y=[0,1,2,3], pointer=1.5)`
with all other arguments at their defaults returns exactly 1.5: the
bisection on `y` centered at 1.5 yields the bracket `t = 1`, the slope is
`(y[2]-y[1])/(x[2]-x[1]) = 1`, and `(1.5 - y[1])/1 + x[1] = 1.5`. -/
theorem c8_cursor_returns_three_halves :
    get_cursor c8list c8list (3 / 2) none none false = Except.ok (3 / 2) := by
  have hsz : c8list.map (fun s => s - (3 / 2 : ℚ)) = [-(3 / 2), -(1 / 2), 1 / 2, 3 / 2] := by
    norm_num [c8list]
  have h1 : dichoGo [-(3 / 2), -(1 / 2), 1 / 2, 3 / 2] 0 3 10000 =
      dichoGo [-(3 / 2), -(1 / 2), 1 / 2, 3 / 2] 1 3 9999 := by
    rw [show (10000 : Nat) = 9999 + 1 from rfl]
    rw [dichoGo]
    norm_num
  have h2 : dichoGo [-(3 / 2), -(1 / 2), 1 / 2, 3 / 2] 1 3 9999 =
      dichoGo [-(3 / 2), -(1 / 2), 1 / 2, 3 / 2] 1 2 9998 := by
    rw [show (9999 : Nat) = 9998 + 1 from rfl]
    rw [dichoGo]
    norm_num
  have h3 : dichoGo [-(3 / 2), -(1 / 2), 1 / 2, 3 / 2] 1 2 9998 = .ok (1, 2, 9998) := by
    rw [show (9998 : Nat) = 9997 + 1 from rfl]
    rw [dichoGo]
    norm_num
  have hz : get_zero_dichoto c8list (3 / 2) 0 none = .ok 1 := by
    unfold get_zero_dichoto
    rw [hsz]
    rw [show (none : Option Nat).getD (c8list.length - 1) = 3 from rfl]
    rw [h1, h2, h3]
  unfold get_cursor
  dsimp only
  rw [hz]
  dsimp only
  rw [show pyGet c8list 2 = .ok 2 from rfl, show pyGet c8list 1 = .ok 1 from rfl]
  dsimp only
  norm_num

/-- `get_circle_kernel(n)` (analysis.py lines 398-405): an `n×n` kernel
with cell `(i,j) = 1` iff `(i-(n-1)/2)² + (j-(n-1)/2)² ≤ (n/2)²`. -/
def get_circle_kernel (n : Nat) : NDArray ℚ :=
  ⟨[n, n], (List.range (n * n)).map fun t =>
    if (((t / n : Nat) : ℚ) - ((n : ℚ) - 1) / 2) ^ 2 +
        (((t % n : Nat) : ℚ) - ((n : ℚ) - 1) / 2) ^ 2 ≤ ((n : ℚ) / 2) ^ 2
    then 1 else 0⟩

/-- Modelled from the spec: the external N-dimensional convolution
primitive (§6b; `scipy.ndimage.convolve` in the source), which is not part
of this repository.  Its positional signature is
`(input, weights, output=None, ...)`; only the behavior relevant here is
modelled: a call with `output=None` returns a same-shape result (the
claims do not depend on the values), while a list of axis indices passed
as the `output` argument is not a valid output array and faults. -/
def convolvePrim (A _kernel : NDArray ℚ) (output : Option (List Int)) :
    Except PyErr (NDArray ℚ) :=
  match output with
  | none => .ok A
  | some _ => .error .typeError

/-- `enlarge_mask(mask, n_neighbors, axes)` (analysis.py lines 408-415),
parameterised over the external convolution primitive.  The source calls
`do_stack(ndimage.convolve, 2, 1.*mask, kernel, axes)`: `kernel` and
`axes` are passed *positionally*, so they land in `do_stack`'s `*args`
and are forwarded to `func = ndimage.convolve` as its second and third
positional parameters (`weights` and `output`), while `do_stack`'s
keyword-only `axes` parameter keeps its default `None`. -/
def enlarge_mask (conv : NDArray ℚ → NDArray ℚ → Option (List Int) → Except PyErr (NDArray ℚ))
    (mask : NDArray Bool) (n_neighbors : Nat) (axes : Option (List Int)) :
    Except PyErr (NDArray Bool) :=
  match do_stack (fun A => conv A (get_circle_kernel (2 * n_neighbors + 1)) axes) 2
      (mask.emap fun b => if b then (1 : ℚ) else 0) none none with
  | .error e => .error e
  | .ok r => .ok (r.emap fun v => decide (0 < v))

def c3mask : NDArray Bool := ⟨[2, 2], [true, false, false, false]⟩

/-- C3: refuted by the code (the slip is in the code, the spec records the
intent).  With an explicit `axes=[0, 1]`, `enlarge_mask` does not hand the
selection to the stacking engine: `do_stack` runs with its default
trailing axes, and `[0, 1]` reaches the convolution primitive as its
`output` argument, which faults (a list of axis indices is not a valid
output array).  The claimed forwarding of `axes` as the engine's axis
selection never happens. -/
theorem c3_axes_reach_convolve_output :
    enlarge_mask convolvePrim c3mask 1 (some [0, 1]) = .error .typeError :=
  rfl

/-- `.T`: reverse all axes (numpy transpose), materialised in C order. -/
def transposeT (a : NDArray ℚ) : NDArray ℚ :=
  ⟨a.shape.reverse, (List.range a.shape.reverse.prod).map fun k =>
    a.data.getD (ravel a.shape ((unravel a.shape.reverse k).reverse)) 0⟩

/-- The output shape of `np.meshgrid` with the default `indexing='xy'`:
for input lengths `(n0, n1, n2, ...)` every output array has shape
`(n1, n0, n2, ...)`; with fewer than two inputs the lengths are kept. -/
def meshShape : List Nat → List Nat
  | n0 :: n1 :: rest => n1 :: n0 :: rest
  | l => l

/-- Which position of a `meshgrid` output's multi-index carries grid `i`'s
coordinate: with `indexing='xy'` and at least two grids, grid 0 varies
along axis 1 and grid 1 along axis 0; all others along their own axis. -/
def meshSource (k i : Nat) (idx : List Nat) : Nat :=
  if 2 ≤ k then
    if i = 0 then idx.getD 1 0
    else if i = 1 then idx.getD 0 0
    else idx.getD i 0
  else idx.getD i 0

/-- `np.meshgrid(*grids)` with the default `indexing='xy'`. -/
def meshgrid (grids : List (List ℚ)) : List (NDArray ℚ) :=
  (List.range grids.length).map fun i =>
    ⟨meshShape (grids.map List.length),
     (List.range (meshShape (grids.map List.length)).prod).map fun t =>
       (grids.getD i []).getD
         (meshSource grids.length i (unravel (meshShape (grids.map List.length)) t)) 0⟩

/-- Modelled from the spec: the external N-dimensional coordinate
interpolator (§6c; `scipy.ndimage.map_coordinates` in the source), which
is not part of this repository.  Only its shape contract is modelled —
the output has the common shape of the coordinate arrays; its values are
irrelevant to the claims settled here and are modelled as zero. -/
def mapCoordinatesModel (_A : NDArray ℚ) (pix : List (NDArray ℚ)) : NDArray ℚ :=
  ⟨(pix.head?.map NDArray.shape).getD [],
   List.replicate ((pix.head?.map NDArray.shape).getD []).prod 0⟩

/-- The inner `func` of `regrid` (analysis.py lines 483-485) together with
the overridden `CartesianGrid.__call__` (lines 471-481): map each
requested coordinate array `c` for an axis with limits `(lo, hi)` and
source size `n` to fractional pixel indices `(c - lo) * (n - 1) / (hi - lo)`
(zipping `limits`, the coordinate arrays and the slice's shape, with
Python `zip` truncation), evaluate the external interpolator on the slice
at those coordinates, and transpose the result (`.T`). -/
def regridFunc (interp : NDArray ℚ → List (NDArray ℚ) → NDArray ℚ)
    (limits : List (ℚ × ℚ)) (coords : List (NDArray ℚ)) (A : NDArray ℚ) : NDArray ℚ :=
  transposeT (interp A
    ((limits.zip (coords.zip A.shape)).map fun z =>
      z.2.1.emap fun v => (v - z.1.1) * ((z.2.2 : ℚ) - 1) / (z.1.2 - z.1.1)))

/-- The loop `for i, ax in enumerate(axes): shape[ax] = len(grid[i])`
(analysis.py lines 497-498): `grid[i]` raises IndexError when `axes` is
longer than `grid`, and `shape[ax] = ...` raises IndexError when `ax` is
outside `[-len(shape), len(shape))` (Python list index normalisation is
the same rule as numpy axis normalisation). -/
def setShapeGo (grids : List (List ℚ)) : List Nat → List Int → Nat → Except PyErr (List Nat)
  | shape, [], _ => .ok shape
  | shape, ax :: rest, i =>
    match grids.get? i with
    | none => .error .indexError
    | some g =>
      match normAxis shape.length ax with
      | none => .error .indexError
      | some p => setShapeGo grids (shape.set p g.length) rest (i + 1)

/-- `regrid(data, limits, *grid, axes=axesOpt, **kwargs)` (analysis.py
lines 418-505), parameterised over the external coordinate interpolator
(§6c); the `kwargs` (interpolation order, fill value) only reach the
interpolator and are absorbed into `interp`.  Order of the source:
resolve the default `axes`, check `len(limits) == len(grid)` (ValueError
otherwise), build the new shape, allocate `np.zeros(shape)` for `output`,
build the coordinate meshes, then run `do_stack`. -/
def regrid (interp : NDArray ℚ → List (NDArray ℚ) → NDArray ℚ) (data : NDArray ℚ)
    (limits : List (ℚ × ℚ)) (grid : List (List ℚ)) (axesOpt : Option (List Int)) :
    Except PyErr (NDArray ℚ) :=
  if limits.length ≠ grid.length then .error .valueError
  else
    match setShapeGo grid data.shape (axesOpt.getD (defaultAxes grid.length)) 0 with
    | .error e => .error e
    | .ok sh =>
      do_stack (fun A => Except.ok (regridFunc interp limits (meshgrid grid) A))
        grid.length data (some (axesOpt.getD (defaultAxes grid.length))) (some (zerosQ sh))

def c2data : NDArray ℚ := ⟨[3, 1, 2], List.replicate 6 0⟩

def c2limits : List (ℚ × ℚ) := [(0, 1), (0, 1)]

def c2grid : List (List ℚ) := [[0], [0, 1]]

/-- C2: refuted by the code.  Regridding axes `[0, 1]` of a `(3, 1, 2)`
array onto target grids of lengths 1 and 2 should, per the claim, return
shape `(1, 2, 2)`; the call raises no error but returns shape `(2, 2, 1)`:
`do_stack` mispermutes the operating axes for the non-trailing selection
`[0, 1]` (see C1) and treats the caller-supplied output — shaped in
original axis order — as if it were in permuted order, so the final
"reswap" scrambles the result's axes. -/
theorem c2_regrid_shape_wrong :
    (regrid mapCoordinatesModel c2data c2limits c2grid (some [0, 1])).map NDArray.shape
      = Except.ok [2, 2, 1] ∧ ([2, 2, 1] : List Nat) ≠ [1, 2, 2] :=
  ⟨rfl, by decide⟩

lemma swapFrom_rank_lt (axes : List Int) (ndim : Nat) (arr : NDArray ℚ)
    (h0 : 0 < ndim) (h1 : arr.rank < ndim) :
    ∃ e, swapFrom axes (defaultAxes ndim) 0 ndim arr = .error e := by
  obtain ⟨m, rfl⟩ : ∃ m, ndim = m + 1 := ⟨ndim - 1, by omega⟩
  have hlast : (defaultAxes (m + 1)).get? 0 = some (0 - (m + 1 : Int)) := by
    rw [defaultAxes, List.range_succ_eq_map]
    rfl
  have hnb : normAxis arr.rank (0 - (m + 1 : Int)) = none := by
    unfold normAxis
    rw [if_neg (by omega), if_neg (by omega)]
  cases hga : axes.get? 0 with
  | none =>
    refine ⟨.indexError, ?_⟩
    simp only [swapFrom]
    unfold swapStep
    rw [hga]
  | some a =>
    refine ⟨.axisError, ?_⟩
    simp only [swapFrom]
    unfold swapStep
    rw [hga, hlast]
    dsimp only
    rw [hnb]
    cases hna : normAxis arr.rank a <;> rfl

/-- C6: confirmed (with the spec's abstract ShapeMismatch fault realised
by the concrete exceptions the source raises: ValueError for a
`limits`/`grid` length mismatch, IndexError or numpy AxisError when the
regridded-axis count exceeds the array's rank).  In both cases the result
is the same error for *every* interpolation primitive, i.e. the external
numeric interpolation is never invoked: the length check fires before
anything else, and an excess regridded-axis count fails either in the
shape-replacement loop (for the default axes, `shape[-ndim]` is out of
range) or at the first `swapaxes` inside `do_stack` (`lastaxes[0] = -ndim`
is out of range), both before any per-slice computation. -/
theorem c6_regrid_validates_before_compute (data : NDArray ℚ) (limits : List (ℚ × ℚ))
    (grid : List (List ℚ)) (axesOpt : Option (List Int)) :
    (limits.length ≠ grid.length →
      ∀ interp, regrid interp data limits grid axesOpt = .error .valueError) ∧
    (limits.length = grid.length → data.rank < grid.length →
      ∃ e, ∀ interp, regrid interp data limits grid axesOpt = .error e) := by
  constructor
  · intro h interp
    unfold regrid
    rw [if_pos h]
  · intro hlen hrank
    have hne : ¬limits.length ≠ grid.length := fun hc => hc hlen
    cases hset : setShapeGo grid data.shape (axesOpt.getD (defaultAxes grid.length)) 0 with
    | error e =>
      refine ⟨e, fun interp => ?_⟩
      unfold regrid
      rw [if_neg hne, hset]
    | ok sh =>
      obtain ⟨e, he⟩ := swapFrom_rank_lt (axesOpt.getD (defaultAxes grid.length))
        grid.length data (by omega) hrank
      refine ⟨e, fun interp => ?_⟩
      unfold regrid
      rw [if_neg hne, hset]
      exact doStack_error_of_swapFrom he _ _

def c6data : NDArray ℚ := ⟨[2], [0, 0]⟩

theorem c6_regrid_validates_before_compute_witness :
    (([] : List (ℚ × ℚ)).length ≠ ([[0]] : List (List ℚ)).length ∧
      ∀ interp, regrid interp c6data [] [[0]] none = .error .valueError) ∧
    (c2limits.length = c2grid.length ∧ c6data.rank < c2grid.length ∧
      ∃ e, ∀ interp, regrid interp c6data c2limits c2grid none = .error e) :=
  ⟨⟨by decide,
    (c6_regrid_validates_before_compute c6data [] [[0]] none).1 (by decide)⟩,
   ⟨by decide, by decide,
    (c6_regrid_validates_before_compute c6data c2limits c2grid none).2
      (by decide) (by decide)⟩⟩
